import Mathlib

/-!
Verification development for the computed-role selector engine of the
playwright-utils repository.

The engine (source file: the selector-engine script) computes, over a
document tree, element visibility (isElementHidden), effective ARIA roles
(computeElementRole), accessible names (computeAccessibleName), plain-text
extraction (asText), and a query engine (SelectorEngine.query and
SelectorEngine.queryAll) that enumerates elements by role with an optional
accessible-name filter.

Modelling conventions, stated once here:

* Nodes are identified by natural numbers indexing into a list of node
  records.  Node 0 is, by convention, the document node.  A well-formed
  document (a real DOM tree) admits a topological numbering in which every
  structural edge (parent to child, slot to assigned node, shadow host to
  shadow root, shadow root to its children) goes to a strictly larger
  identifier, and parentElement edges go to strictly smaller identifiers;
  the concrete documents built below follow this numbering.

* Recursive tree walks take an explicit fuel argument.  Fuel is purely a
  termination device: every theorem below either holds for all fuel values
  or is stated at an explicit fuel shape such as f+1+1+1, so no theorem
  depends on a hidden sufficiency assumption.  Canonical wrappers
  instantiate the fuel at the document size, which on the topological
  numbering above bounds every ancestor chain and tree depth.

* The source keeps one WeakMap of computed styles (computedStyleCache) in
  the scope of the engine instance, outside query and queryAll.
  getComputedStyle returns a live CSSStyleDeclaration, so the cached
  object always reflects the current style data of the element; the cache
  is therefore modelled as the set of element identifiers whose style
  declaration has been cached, emitted alongside each result (a writer
  style state), with the values always read from the document record.
  The engine-level carrying of this cache across calls is modelled by
  engineQueryAll, which merges the emitted set into the persistent one.

* IDL attribute reflections are modelled from their content attributes:
  alt, title, id, value reflect the same-named attributes with default
  empty string; multiple, inert, hidden and href presence use
  hasAttribute; the input type property is the lowercased type attribute
  defaulting to the empty default which the engine treats identically to
  the real normalisation (all switch statements in the source place every
  non-listed type value and the value text on the same branch).

* JSON parsing of the selector payload is the boundary of the model: the
  query functions take the parsed record of optional fields, exactly the
  fields the source destructures from JSON.parse.
-/

/-! ## String utilities

The source normalisation is
`strings.map(s => s.trim().replace(WSRUN, " ")).filter(Boolean).join(" ")`.
We implement whitespace tokenisation over character lists so that every
string operation reduces inside the kernel. -/

def jsWs (c : Char) : Bool :=
  c = ' ' || c = '\t' || c = '\n' || c = '\r' || c = Char.ofNat 11 || c = Char.ofNat 12

/-- Splits a character list into maximal non-whitespace runs; the second
argument accumulates the current run in reverse. -/
def wordsAux : List Char → List Char → List String
  | [], cur => if cur.isEmpty then [] else [String.mk cur.reverse]
  | c :: cs, cur =>
    if jsWs c then
      (if cur.isEmpty then wordsAux cs [] else String.mk cur.reverse :: wordsAux cs [])
    else wordsAux cs (c :: cur)

/-- Whitespace tokens of a string: trim plus split on whitespace runs. -/
def wsTokens (s : String) : List String := wordsAux s.data []

/-- Joins strings with single spaces. -/
def joinSp : List String → String
  | [] => ""
  | [s] => s
  | s :: rest => s ++ " " ++ joinSp rest

/-- One-string normalisation: trim and collapse internal whitespace runs. -/
def normOne (s : String) : String := joinSp (wsTokens s)

/-- Models the normalize helper of the source (renamed here to avoid a
library name): normalise each piece, drop empty pieces, join with single
spaces. -/
def normalizeWs (ss : List String) : String :=
  joinSp ((ss.map normOne).filter (fun s => s ≠ ""))

def lowerChar (c : Char) : Char :=
  if 'A' ≤ c ∧ c ≤ 'Z' then Char.ofNat (c.toNat + 32) else c

/-- ASCII lowercasing, modelling toLowerCase on the strings the engine
compares. -/
def lowerStr (s : String) : String := String.mk (s.data.map lowerChar)

/-- Tests whether the first list occurs at the head of the second. -/
def leadsWith : List Char → List Char → Bool
  | [], _ => true
  | _ :: _, [] => false
  | a :: as, b :: bs => a = b && leadsWith as bs

/-- Tests whether the first list occurs as a contiguous sublist. -/
def hasSubList (p : List Char) : List Char → Bool
  | [] => p.isEmpty
  | c :: t => leadsWith p (c :: t) || hasSubList p t

/-- Models String.prototype.includes. -/
def strIncludes (s pat : String) : Bool := hasSubList pat.data s.data

/-! ## Document model -/

/-- One tree node.  nodeType follows DOM numbering: 1 element, 3 text,
9 document, 11 document fragment (used for shadow roots).  display and
visibility are the resolved computed-style values.  assigned lists the
node identifiers returned by assignedNodes with flatten for a slot
element, and is empty otherwise.  parent is the parentElement edge. -/
structure NodeData where
  nodeType : Nat := 1
  tagName : String := ""
  isHTML : Bool := true
  nodeValue : String := ""
  attrs : List (String × String) := []
  display : String := "block"
  visibility : String := "visible"
  children : List Nat := []
  assigned : List Nat := []
  parent : Option Nat := none
  deriving Repr, DecidableEq

/-- The ElementInternals data the tracker records for an element:
role, ariaLabel, and ariaLabelledByElements. -/
structure InternalsData where
  role : Option String := none
  ariaLabel : Option String := none
  ariaLabelledByElements : Option (List Nat) := none
  deriving Repr, DecidableEq

/-- A document: the node store plus the two tracker maps the init script
populates (internalsMap and shadowdomMap), keyed by element identifier. -/
structure Doc where
  nodes : List NodeData
  internals : List (Nat × InternalsData) := []
  shadow : List (Nat × Nat) := []
  deriving Repr

/-- A node record for identifiers outside the store: nodeType 0, so it is
neither text, element, nor a selector root, and it has no structure. -/
def defaultNode : NodeData :=
  { nodeType := 0, tagName := "", isHTML := false, nodeValue := "", attrs := [],
    display := "", visibility := "", children := [], assigned := [], parent := none }

def Doc.node (d : Doc) (n : Nat) : NodeData := d.nodes.getD n defaultNode

/-- Models getAttribute: the recorded attribute value, or none. -/
def getAttr (d : Doc) (n : Nat) (name : String) : Option String :=
  ((d.node n).attrs).lookup name

/-- Models hasAttribute. -/
def hasAttr (d : Doc) (n : Nat) (name : String) : Bool :=
  (getAttr d n name).isSome

/-- Models the alt IDL attribute (defaults to the empty string). -/
def altOf (d : Doc) (n : Nat) : String := (getAttr d n "alt").getD ""

/-- Models the value property of an input as its content attribute. -/
def valueOf (d : Doc) (n : Nat) : String := (getAttr d n "value").getD ""

/-- Models the title IDL attribute. -/
def titleOf (d : Doc) (n : Nat) : String := (getAttr d n "title").getD ""

/-- Models the type property of an input element: the lowercased type
attribute; a missing attribute gives the default type.  Unknown type
values land on the same branches as the real default normalisation in
every switch of the source. -/
def inputType (d : Doc) (n : Nat) : String :=
  ((getAttr d n "type").map lowerStr).getD "text"

/-- Models instanceof HTMLSlotElement. -/
def isSlotEl (d : Doc) (n : Nat) : Prop :=
  (d.node n).tagName = "SLOT" ∧ (d.node n).isHTML = true

instance (d : Doc) (n : Nat) : Decidable (isSlotEl d n) := by
  unfold isSlotEl; infer_instance

/-- Models the isSelectorRoot check: element, document, or fragment. -/
def isSelectorRoot (d : Doc) (n : Nat) : Prop :=
  (d.node n).nodeType = 1 ∨ (d.node n).nodeType = 9 ∨ (d.node n).nodeType = 11

instance (d : Doc) (n : Nat) : Decidable (isSelectorRoot d n) := by
  unfold isSelectorRoot; infer_instance

/-! ## Visibility: isElementHidden

The source walks the parentElement chain from the target; at every element
on the chain it checks, in order: the hidden attribute, aria-hidden set to
the string true, cached computed style display none or visibility hidden,
and the inert flag of an HTMLElement.  The second component of the result
is the set of elements whose computed style was cached during the walk
(see the style-cache modelling note at the top). -/

def isElementHiddenF (d : Doc) : Nat → Nat → Bool × List Nat
  | 0, _ => (false, [])
  | fuel + 1, n =>
    if (d.node n).nodeType = 1 then
      if hasAttr d n "hidden" then (true, [])
      else if getAttr d n "aria-hidden" = some "true" then (true, [])
      else if (d.node n).display = "none" ∨ (d.node n).visibility = "hidden" then (true, [n])
      else if (d.node n).isHTML = true ∧ hasAttr d n "inert" then (true, [n])
      else
        match (d.node n).parent with
        | some p => let r := isElementHiddenF d fuel p; (r.fst, n :: r.snd)
        | none => (false, [n])
    else
      match (d.node n).parent with
      | some p => isElementHiddenF d fuel p
      | none => (false, [])

/-- Canonical entry point: the parentElement chain of a well-formed
document with the topological numbering is shorter than the node count. -/
def isElementHidden (d : Doc) (n : Nat) : Bool × List Nat :=
  isElementHiddenF d d.nodes.length n

/-- The chain of nodes the hidden walk visits, at the same fuel. -/
def chainF (d : Doc) : Nat → Nat → List Nat
  | 0, _ => []
  | fuel + 1, n =>
    n :: (match (d.node n).parent with
          | some p => chainF d fuel p
          | none => [])

/-- Canonical ancestor chain, at the same fuel as isElementHidden. -/
def chainC (d : Doc) (n : Nat) : List Nat := chainF d d.nodes.length n

/-- The per-node hidden conditions of the walk, as one test. -/
def flaggedHidden (d : Doc) (n : Nat) : Bool :=
  decide ((d.node n).nodeType = 1) &&
    (hasAttr d n "hidden" ||
     decide (getAttr d n "aria-hidden" = some "true") ||
     decide ((d.node n).display = "none") ||
     decide ((d.node n).visibility = "hidden") ||
     ((d.node n).isHTML && hasAttr d n "inert"))

/-- Hidden through the listed conditions on the node itself or on an
ancestor of its parentElement chain. -/
def HiddenVia (d : Doc) (n : Nat) : Bool := (chainC d n).any (flaggedHidden d)

/-- Checks that all parentElement edges decrease the node identifier, as
the topological numbering of a real document guarantees. -/
def parentOk (d : Doc) (n : Nat) : Bool :=
  match (d.node n).parent with
  | some p => decide (p < n)
  | none => true

def ParentsDecrease (d : Doc) : Bool :=
  (List.range d.nodes.length).all (parentOk d)

/-! ## Document order, getElementById, label association

The source resolves id references through getElementById and label
elements through querySelectorAll on the owner document, both of which
search the document (light) tree in tree order.  treeNodesF collects the
pre-order of the children edges from a start node. -/

def treeNodesF (d : Doc) : Nat → Nat → List Nat
  | 0, _ => []
  | fuel + 1, n =>
    n :: ((d.node n).children).foldl (fun acc c => acc ++ treeNodesF d fuel c) []

/-- The document tree in tree order, from the document node 0. -/
def docOrderNodes (d : Doc) : List Nat := treeNodesF d (d.nodes.length + 1) 0

/-- The subtree of a node in tree order. -/
def treeNodesFrom (d : Doc) (n : Nat) : List Nat := treeNodesF d (d.nodes.length + 1) n

/-- Models document.getElementById: the first element in tree order whose
id attribute equals the argument; the empty string never matches. -/
def getElementById (d : Doc) (s : String) : Option Nat :=
  if s = "" then none
  else (docOrderNodes d).find? (fun n =>
    decide ((d.node n).nodeType = 1) && decide (getAttr d n "id" = some s))

/-- Models resolveIdRefs: trim, split on whitespace, resolve each id and
silently drop misses. -/
def resolveIdRefs (d : Doc) (ids : String) : List Nat :=
  (wsTokens ids).filterMap (fun id => getElementById d id)

/-- Models getLabelledByElementsByAttribute: the resolved aria-labelledby
attribute when present and non-empty (the owner document of an element in
the model is always the document). -/
def getLabelledByElementsByAttribute (d : Doc) (n : Nat) : List Nat :=
  match getAttr d n "aria-labelledby" with
  | some v => if v ≠ "" then resolveIdRefs d v else []
  | none => []

/-- Models querySelectorAll with a label-for-id selector: label elements
of the document tree, in tree order, whose for attribute equals id. -/
def labelForElems (d : Doc) (id : String) : List Nat :=
  (docOrderNodes d).filter (fun n =>
    decide ((d.node n).nodeType = 1) && decide ((d.node n).tagName = "LABEL") &&
      decide (getAttr d n "for" = some id))

/-- Labelable elements, for the labels collection: button, meter, output,
progress, select, textarea, and inputs that are not of hidden type. -/
def isLabelable (d : Doc) (n : Nat) : Bool :=
  decide ((d.node n).nodeType = 1) &&
    (decide ((d.node n).tagName ∈ ["BUTTON", "METER", "OUTPUT", "PROGRESS", "SELECT", "TEXTAREA"]) ||
     (decide ((d.node n).tagName = "INPUT") && decide (inputType d n ≠ "hidden")))

/-- The labeled control of a label element: through the for attribute if
present, else the first labelable descendant in tree order. -/
def labeledControl (d : Doc) (lab : Nat) : Option Nat :=
  match getAttr d lab "for" with
  | some fv =>
    match getElementById d fv with
    | some c => if isLabelable d c then some c else none
    | none => none
  | none => ((treeNodesFrom d lab).drop 1).find? (isLabelable d)

/-- Models the labels IDL collection: none for elements that are not
labelable (the source guard on el.labels), else every label of the
document whose labeled control is this element, in tree order. -/
def labelsOf (d : Doc) (n : Nat) : Option (List Nat) :=
  if isLabelable d n then
    some ((docOrderNodes d).filter (fun lab =>
      decide ((d.node lab).nodeType = 1) && decide ((d.node lab).tagName = "LABEL") &&
        decide (labeledControl d lab = some n)))
  else none

/-! ## Text extraction: asText

The second result component is the emitted style-cache set, as explained
at the top.  The source signature also threads the owner document, which
the body never reads; it is dropped here.  assignedNodes with flatten is
the assigned field; a slot with assigned nodes uses exactly those, a host
with a tracker-registered shadow root uses the shadow-root children, and
every other element uses its own childNodes. -/

def foldTexts (g : Nat → String × List Nat) (ns : List Nat) : List String × List Nat :=
  ns.foldl (fun p c => let r := g c; (p.fst ++ [r.fst], p.snd ++ r.snd)) ([], [])

def asTextF (d : Doc) : Nat → Nat → String × List Nat
  | 0, _ => ("", [])
  | fuel + 1, n =>
    if (d.node n).nodeType = 3 then ((d.node n).nodeValue, [])
    else if (d.node n).nodeType ≠ 1 then ("", [])
    else
      let hdn := isElementHidden d n
      if hdn.fst then ("", hdn.snd)
      else if (d.node n).tagName = "IMG" then (altOf d n, hdn.snd)
      else if (d.node n).tagName = "INPUT" then
        (if inputType d n ∈ ["button", "submit", "reset"] then valueOf d n
         else if inputType d n = "image" then altOf d n
         else "", hdn.snd)
      else
        let g := fun c => asTextF d fuel c
        if isSlotEl d n ∧ (d.node n).assigned ≠ [] then
          let r := foldTexts g (d.node n).assigned
          (normalizeWs r.fst, hdn.snd ++ r.snd)
        else
          match (d.shadow).lookup n with
          | some s =>
            let r := foldTexts g (d.node s).children
            (normalizeWs r.fst, hdn.snd ++ r.snd)
          | none =>
            let r := foldTexts g (d.node n).children
            (normalizeWs r.fst, hdn.snd ++ r.snd)

/-- Canonical entry point for asText at the document-size fuel, which on
the topological numbering bounds the depth of every recursion edge. -/
def asTextC (d : Doc) (n : Nat) : String × List Nat :=
  asTextF d (d.nodes.length + 1) n

/-- Maps asTextC over a node list, concatenating emissions. -/
def asTextsC (d : Doc) (ns : List Nat) : List String × List Nat :=
  ns.foldl (fun p c => let r := asTextC d c; (p.fst ++ [r.fst], p.snd ++ r.snd)) ([], [])

/-- Models the labels branch of associatedLabelText. -/
def assocStep2 (d : Doc) (n : Nat) : Option String × List Nat :=
  match labelsOf d n with
  | some ls =>
    let r := asTextsC d ls
    let t := normalizeWs r.fst
    (if t ≠ "" then some t else none, r.snd)
  | none => (none, [])

/-- Models associatedLabelText: first the label-for-id matches of a
non-empty id, then the labels collection; a result is always non-empty. -/
def associatedLabelTextC (d : Doc) (n : Nat) : Option String × List Nat :=
  let idv := (getAttr d n "id").getD ""
  if idv ≠ "" then
    let r := asTextsC d (labelForElems d idv)
    let t := normalizeWs r.fst
    if t ≠ "" then (some t, r.snd)
    else
      let s2 := assocStep2 d n
      (s2.fst, r.snd ++ s2.snd)
  else assocStep2 d n

/-! ## Role and accessible-name computation

The accessible-name computation threads a per-call cache (element to
computed name) and a visited set breaking reference cycles; both are
created fresh by each top-level caller, exactly as the source creates
fresh WeakMap and WeakSet defaults when the options carry none.  The
touched field is the emitted style-cache set.  The fuel argument bounds
the depth of the cross-reference recursion; the cycle guard makes every
result stable in the fuel as soon as the fuel covers the reference depth,
which the cycle theorems below exercise. -/

def rolesAllowingNameFromContent : List String :=
  ["button", "link", "menuitem", "menuitemcheckbox", "menuitemradio", "option",
   "tab", "switch", "checkbox", "radio", "treeitem", "heading", "term",
   "definition", "toolbar", "group", "region"]

/-- Models computeInputElementRole: the switch over the input type.  The
source returns button for button, submit, reset and image types, the type
itself for checkbox and radio, and textbox for everything else. -/
def computeInputElementRole (d : Doc) (n : Nat) : String :=
  if inputType d n ∈ ["button", "submit", "reset", "image"] then "button"
  else if inputType d n = "checkbox" then "checkbox"
  else if inputType d n = "radio" then "radio"
  else "textbox"

/-- The threaded state of one top-level accessible-name computation. -/
structure NameSt where
  cache : List (Nat × String) := []
  visited : List Nat := []
  touched : List Nat := []
  deriving Repr, DecidableEq

/-- Models cacheAndReturn: store the computed name for the element. -/
def cachePut (st : NameSt) (el : Nat) (t : String) : NameSt :=
  { st with cache := (el, t) :: st.cache }

def addTouched (st : NameSt) (em : List Nat) : NameSt :=
  { st with touched := st.touched ++ em }

/-- Models steps 2 to 5 of computeAccessibleName, after the labelled-by
step: the aria-label attribute (which the expression of the source reads
before the internals ariaLabel, see the claim about their precedence),
native label association, the image and input fallbacks, the title, then
name from content for the roles that allow it, then the full visible-text
fallback.  roleFn is the role computation at the current fuel, with its
style emissions. -/
def canFinish (d : Doc) (roleFn : Nat → Option String × List Nat) (st : NameSt)
    (el : Nat) (knownRole : Option String) (allowNFC : Bool) : String × NameSt :=
  let internals := (d.internals).lookup el
  let ariaLabel := ((getAttr d el "aria-label").or (internals.bind (fun i => i.ariaLabel))).getD ""
  if normOne ariaLabel ≠ "" then
    let t := normalizeWs [ariaLabel]
    (t, cachePut st el t)
  else
    let ar := associatedLabelTextC d el
    let st₂ := addTouched st ar.snd
    match ar.fst with
    | some t => (t, cachePut st₂ el t)
    | none =>
      if (d.node el).tagName = "IMG" ∧ altOf d el ≠ "" then
        let t := normalizeWs [altOf d el]
        (t, cachePut st₂ el t)
      else if (d.node el).tagName = "INPUT" ∧ inputType d el = "image" ∧ altOf d el ≠ "" then
        let t := normalizeWs [altOf d el]
        (t, cachePut st₂ el t)
      else if (d.node el).tagName = "INPUT" ∧ inputType d el ∈ ["button", "submit", "reset"] ∧
          inputType d el ≠ "image" ∧ valueOf d el ≠ "" then
        let t := normalizeWs [valueOf d el]
        (t, cachePut st₂ el t)
      else if (d.node el).isHTML = true ∧ titleOf d el ≠ "" then
        let t := normalizeWs [titleOf d el]
        (t, cachePut st₂ el t)
      else
        let rr := match knownRole with
          | some r => (some r, ([] : List Nat))
          | none => roleFn el
        let st₃ := addTouched st₂ rr.snd
        let rl := rr.fst.getD ""
        if allowNFC = true ∧ rl ≠ "" ∧ rl ∈ rolesAllowingNameFromContent then
          let tx := asTextC d el
          let st₄ := addTouched st₃ tx.snd
          if tx.fst ≠ "" then (tx.fst, cachePut st₄ el tx.fst)
          else
            let tx2 := asTextC d el
            let st₅ := addTouched st₄ tx2.snd
            (tx2.fst, cachePut st₅ el tx2.fst)
        else
          let tx2 := asTextC d el
          let st₅ := addTouched st₃ tx2.snd
          (tx2.fst, cachePut st₅ el tx2.fst)

/-- Models the switch of computeElementRole: the explicit role attribute
verbatim when non-empty, then the fixed tag table, then the tracker
internals role, else none.  secName is the accessible-name computation
used by the sectioning branch (name from content disabled, known role
region, fresh cache and visited set). -/
def computeRoleWith (d : Doc) (secName : Nat → String × List Nat) (n : Nat) :
    Option String × List Nat :=
  let explicit := (getAttr d n "role").getD ""
  if explicit ≠ "" then (some explicit, [])
  else
    match (d.node n).tagName with
    | "ARTICLE" => (some "article", [])
    | "ASIDE" => (some "complementary", [])
    | "BUTTON" => (some "button", [])
    | "FOOTER" => (some "contentinfo", [])
    | "FORM" => (some "form", [])
    | "H1" => (some "heading", [])
    | "H2" => (some "heading", [])
    | "H3" => (some "heading", [])
    | "H4" => (some "heading", [])
    | "H5" => (some "heading", [])
    | "H6" => (some "heading", [])
    | "HEADER" => (some "banner", [])
    | "IMG" => (some "img", [])
    | "LABEL" => (some "label", [])
    | "LI" => (some "listitem", [])
    | "MAIN" => (some "main", [])
    | "METER" => (some "progressbar", [])
    | "NAV" => (some "navigation", [])
    | "TABLE" => (some "table", [])
    | "TEXTAREA" => (some "textbox", [])
    | "OL" => (some "list", [])
    | "UL" => (some "list", [])
    | "INPUT" => (some (computeInputElementRole d n), [])
    | "SECTION" =>
      let r := secName n
      ((if r.fst ≠ "" then some "region" else some "generic"), r.snd)
    | "SELECT" => (some (if hasAttr d n "multiple" then "listbox" else "combobox"), [])
    | "A" => ((if hasAttr d n "href" then some "link" else none), [])
    | _ =>
      match (d.internals).lookup n with
      | some i =>
        (match i.role with
         | some r => if r ≠ "" then (some r, []) else (none, [])
         | none => (none, []))
      | none => (none, [])

/-- Folds the accessible-name computation over a reference list, keeping
the per-string results and threading the state, as the source does when
it maps the recursive computation over the labelled-by elements. -/
def foldNames (g : NameSt → Nat → String × NameSt) (st : NameSt) (ns : List Nat) :
    List String × NameSt :=
  ns.foldl (fun p c => let r := g p.snd c; (p.fst ++ [r.fst], r.snd)) ([], st)

/-- Models computeAccessibleName.  Order of the source: cache, visited
guard, visited insertion, labelled-by references (internals first, then
the attribute), then the remaining steps of canFinish.  The recursive
calls on references spread the options, so they keep the known role and
share the cache and visited set, with name from content forced on. -/
def cANS (d : Doc) : Nat → NameSt → Nat → Option String → Bool → String × NameSt
  | 0, st, _, _, _ => ("", st)
  | fuel + 1, st, el, knownRole, allowNFC =>
    match st.cache.lookup el with
    | some v => (v, st)
    | none =>
      if st.visited.contains el then ("", st)
      else
        let st₁ : NameSt := ⟨st.cache, el :: st.visited, st.touched⟩
        let internals := (d.internals).lookup el
        let refs := match internals.bind (fun i => i.ariaLabelledByElements) with
          | some l => l
          | none => getLabelledByElementsByAttribute d el
        let roleFn : Nat → Option String × List Nat := fun e =>
          computeRoleWith d (fun e2 =>
            let q := cANS d fuel ⟨[], [], []⟩ e2 (some "region") false
            (q.fst, q.snd.touched)) e
        if refs ≠ [] then
          let r := foldNames (fun s e => cANS d fuel s e knownRole true) st₁ refs
          let t := normalizeWs r.fst
          if t ≠ "" then (t, cachePut r.snd el t)
          else canFinish d roleFn r.snd el knownRole allowNFC
        else canFinish d roleFn st₁ el knownRole allowNFC

/-- Models computeElementRole at a given reference-recursion fuel.  The
result pairs the role with the emitted style-cache set (only a sectioning
element can emit, through its name computation). -/
def computeElementRoleS (d : Doc) (fuel : Nat) (n : Nat) : Option String × List Nat :=
  computeRoleWith d (fun e2 =>
    let q := cANS d fuel ⟨[], [], []⟩ e2 (some "region") false
    (q.fst, q.snd.touched)) n

/-! ## Name filter -/

/-- The parsed query payload: the fields the source destructures from the
JSON selector.  The description field is parsed but never read by the
matching logic. -/
structure ParsedOptions where
  role : Option String := none
  name : Option String := none
  description : Option String := none
  exact : Option Bool := none
  deriving Repr, DecidableEq

/-- Models matchesNameFilter: nothing matches when the filter is falsy;
otherwise compute the role, compute the accessible name with a fresh
cache and visited set and the role as known role, and only a non-empty
name can match, exactly (case-sensitive equality) or as a
case-insensitive substring. -/
def matchesNameFilterS (d : Doc) (fuel : Nat) (n : Nat) (nf : Option String)
    (ex : Option Bool) : Bool × List Nat :=
  if (nf.getD "") = "" then (false, [])
  else
    let ro := computeElementRoleS d fuel n
    let na := cANS d fuel ⟨[], [], []⟩ n ro.fst true
    let touched := ro.snd ++ na.snd.touched
    if na.fst ≠ "" then
      ((if ex.getD false then decide (na.fst = nf.getD "")
        else strIncludes (lowerStr na.fst) (lowerStr (nf.getD ""))), touched)
    else (false, touched)

/-! ## Traversal: getElements

The generator of the source yields, in document order, every visible
element reachable from the root, pruning hidden elements together with
their subtrees, following assigned content for slots and the registered
shadow root for hosts instead of the ordinary children.  The model
returns the yielded list eagerly; query takes the head of the list, which
is the element the lazy generator of the source stops at.  The state
carries the traversal visited set (fresh per call, as the default
argument of the source creates it) and the emitted style-cache set. -/

structure TravSt where
  visited : List Nat := []
  touched : List Nat := []
  deriving Repr, DecidableEq

/-- Folds a traversal step over a node list, concatenating yields and
threading the state. -/
def foldTrav (g : TravSt → Nat → List Nat × TravSt) (st : TravSt) (ns : List Nat) :
    List Nat × TravSt :=
  ns.foldl (fun p c => let r := g p.snd c; (p.fst ++ r.fst, r.snd)) ([], st)

/-- Models the isElement and isHidden pair of cached checks of the
traversal: only an element is hidden-checked. -/
def hiddenCheck (d : Doc) (n : Nat) : Bool × List Nat :=
  if (d.node n).nodeType = 1 then isElementHidden d n else (false, [])

def getElementsS (d : Doc) : Nat → TravSt → Nat → List Nat × TravSt
  | 0, st, _ => ([], st)
  | fuel + 1, st, n =>
    if st.visited.contains n then ([], st)
    else
      let st₁ : TravSt := ⟨n :: st.visited, st.touched⟩
      let hdn := hiddenCheck d n
      let st₂ : TravSt := ⟨st₁.visited, st₁.touched ++ hdn.snd⟩
      let g := fun s c => getElementsS d fuel s c
      if (d.node n).nodeType = 1 ∧ hdn.fst = false then
        let assignedEls := (d.node n).assigned.filter (fun a => decide ((d.node a).nodeType = 1))
        if isSlotEl d n ∧ assignedEls ≠ [] then
          let r := foldTrav g st₂ assignedEls
          (n :: r.fst, r.snd)
        else
          match (d.shadow).lookup n with
          | some s =>
            let r := getElementsS d fuel st₂ s
            (n :: r.fst, r.snd)
          | none =>
            let r := foldTrav g st₂ (d.node n).children
            (n :: r.fst, r.snd)
      else
        if isSelectorRoot d n ∧ ((d.node n).nodeType ≠ 1 ∨ hdn.fst = false) then
          foldTrav g st₂ (d.node n).children
        else ([], st₂)

/-! ## The selector engine -/

/-- Models SelectorEngine.queryAll on a parsed payload: an empty result
for a falsy role, else every traversed element whose computed role equals
the requested role and, when a truthy name filter is present, which
satisfies matchesNameFilter.  The second component is the emitted
style-cache set of the whole call. -/
def queryAllS (d : Doc) (fuel : Nat) (root : Nat) (opts : ParsedOptions) :
    List Nat × List Nat :=
  if (opts.role.getD "") = "" then ([], [])
  else
    let r := opts.role.getD ""
    let tr := getElementsS d fuel ⟨[], []⟩ root
    tr.fst.foldl (fun (p : List Nat × List Nat) el =>
      let ro := computeElementRoleS d fuel el
      let p₂ := (p.fst, p.snd ++ ro.snd)
      if ro.fst ≠ some r then p₂
      else if (opts.name.getD "") ≠ "" then
        let m := matchesNameFilterS d fuel el opts.name opts.exact
        ((if m.fst then p₂.fst ++ [el] else p₂.fst), p₂.snd ++ m.snd)
      else (p₂.fst ++ [el], p₂.snd)) ([], tr.snd.touched)

/-- Models SelectorEngine.query: the lazy generator of the source stops
at the first yielded element that passes the filters, which is the head
of the queryAll list. -/
def queryS (d : Doc) (fuel : Nat) (root : Nat) (opts : ParsedOptions) : Option Nat :=
  (queryAllS d fuel root opts).fst.head?

/-- Models one engine-level queryAll call: the engine keeps the computed
style WeakMap across calls (it is created next to the engine instance,
outside query and queryAll), so the emitted set of the call is merged
into the persistent set and handed to the next call. -/
def engineQueryAll (sc : List Nat) (d : Doc) (fuel : Nat) (root : Nat)
    (opts : ParsedOptions) : List Nat × List Nat :=
  let r := queryAllS d fuel root opts
  (r.fst, r.snd.foldl (fun acc n => if acc.contains n then acc else acc ++ [n]) sc)

/-! ## The getByComputedRole payload construction

The locator method builds the JSON payload with
`JSON.stringify({ role, name: options?.name ? String(options.name) :
undefined, description: ..., exact: options?.exact ? Boolean(options.exact)
: undefined })` and prepends the engine name.  JSON.stringify skips
properties whose value is undefined, so falsy options are omitted. -/

def hexDigit (n : Nat) : Char :=
  if n < 10 then Char.ofNat (48 + n) else Char.ofNat (87 + n)

/-- Escapes one character as JSON.stringify does for string values. -/
def jsonEscapeChar (c : Char) : List Char :=
  if c = '"' then ['\\', '"']
  else if c = '\\' then ['\\', '\\']
  else if c = '\n' then ['\\', 'n']
  else if c = '\r' then ['\\', 'r']
  else if c = '\t' then ['\\', 't']
  else if c = Char.ofNat 8 then ['\\', 'b']
  else if c = Char.ofNat 12 then ['\\', 'f']
  else if c.toNat < 32 then
    ['\\', 'u', '0', '0', hexDigit (c.toNat / 16), hexDigit (c.toNat % 16)]
  else [c]

def jsonEscape (s : String) : String :=
  String.mk (s.data.foldr (fun c acc => jsonEscapeChar c ++ acc) [])

/-- The options record of getByComputedRole. -/
structure GbcrOptions where
  name : Option String := none
  description : Option String := none
  exact : Option Bool := none
  deriving Repr, DecidableEq

/-- Models the JSON payload getByComputedRole serialises: the role always,
then name and description only when truthy (String of a string is the
string itself), then exact only when truthy (Boolean of a truthy value is
true); undefined-valued properties are omitted by JSON.stringify, in the
insertion order role, name, description, exact. -/
def serializeGetByComputedRole (role : String) (options : Option GbcrOptions) : String :=
  let nameV := match options with
    | some o => if (o.name.getD "") ≠ "" then some (o.name.getD "") else none
    | none => none
  let descV := match options with
    | some o => if (o.description.getD "") ≠ "" then some (o.description.getD "") else none
    | none => none
  let exactV : Option Bool := match options with
    | some o => if o.exact.getD false then some true else none
    | none => none
  "\x7b\"role\":\"" ++ jsonEscape role ++ "\"" ++
    (match nameV with
     | some v => ",\"name\":\"" ++ jsonEscape v ++ "\""
     | none => "") ++
    (match descV with
     | some v => ",\"description\":\"" ++ jsonEscape v ++ "\""
     | none => "") ++
    (match exactV with
     | some _ => ",\"exact\":true"
     | none => "") ++ "\x7d"

/-- Models the full selector string the locator method passes on. -/
def getByComputedRoleSelector (role : String) (options : Option GbcrOptions) : String :=
  "computed-aria=" ++ serializeGetByComputedRole role options

/-! ## Concrete documents used by the witnesses and counterexamples

Every document follows the topological numbering convention: node 0 is
the document, structural edges increase identifiers, parentElement edges
decrease them. -/

/-- A document with a force-hidden element (node 1) and a child of it
(node 2). -/
def dHid : Doc :=
  { nodes :=
      [ { nodeType := 9, tagName := "", isHTML := false, children := [1] },
        { tagName := "DIV", attrs := [("hidden", "")], children := [2] },
        { tagName := "SPAN", parent := some 1 } ] }

/-- A document whose element 1 has an explicit (non-vocabulary) role
attribute, a conflicting tag mapping and a conflicting internals role. -/
def dRole : Doc :=
  { nodes :=
      [ { nodeType := 9, tagName := "", isHTML := false, children := [1] },
        { tagName := "BUTTON", attrs := [("role", "banana")] } ],
    internals := [(1, { role := some "switch" })] }

/-- A document with a shadow host (node 1, shadow root node 2 holding
node 3) that also has an ordinary light child (node 4). -/
def dShadow : Doc :=
  { nodes :=
      [ { nodeType := 9, tagName := "", isHTML := false, children := [1] },
        { tagName := "DIV", children := [4] },
        { nodeType := 11, tagName := "", isHTML := false, children := [3] },
        { tagName := "SPAN" },
        { tagName := "SPAN", parent := some 1 } ],
    shadow := [(1, 2)] }

/-- Two elements that cross-reference each other through aria-labelledby
and have no other name source. -/
def dCyc : Doc :=
  { nodes :=
      [ { nodeType := 9, tagName := "", isHTML := false, children := [1, 2] },
        { tagName := "DIV", attrs := [("id", "e1"), ("aria-labelledby", "e2")] },
        { tagName := "DIV", attrs := [("id", "e2"), ("aria-labelledby", "e1")] } ] }

/-- An element carrying both a non-empty aria-label attribute and a
non-empty internals ariaLabel. -/
def dLbl : Doc :=
  { nodes :=
      [ { nodeType := 9, tagName := "", isHTML := false, children := [1] },
        { tagName := "DIV", attrs := [("aria-label", "attr label")] } ],
    internals := [(1, { ariaLabel := some "internals label" })] }

/-- A childless button: its computed accessible name is empty. -/
def dBtnE : Doc :=
  { nodes :=
      [ { nodeType := 9, tagName := "", isHTML := false, children := [1] },
        { tagName := "BUTTON" } ] }

/-- A button whose content names it. -/
def dBtn : Doc :=
  { nodes :=
      [ { nodeType := 9, tagName := "", isHTML := false, children := [1] },
        { tagName := "BUTTON", children := [2] },
        { nodeType := 3, tagName := "", isHTML := false, nodeValue := "Go", parent := some 1 } ] }

/-- The labelled-checkbox scenario: an input with an id and a label
associated through the for attribute. -/
def dCheckbox : Doc :=
  { nodes :=
      [ { nodeType := 9, tagName := "", isHTML := false, children := [1, 2] },
        { tagName := "INPUT", attrs := [("id", "c1"), ("type", "checkbox")] },
        { tagName := "LABEL", attrs := [("for", "c1")], children := [3] },
        { nodeType := 3, tagName := "", isHTML := false, nodeValue := "Subscribe", parent := some 2 } ] }

/-- Three button-role elements from the three role sources: an explicit
role attribute on a generic tag, a native button tag, and a custom
element with a recorded internals role. -/
def dThreeButtons : Doc :=
  { nodes :=
      [ { nodeType := 9, tagName := "", isHTML := false, children := [1, 2, 3] },
        { tagName := "DIV", attrs := [("role", "button")] },
        { tagName := "BUTTON" },
        { tagName := "X-BUTTON" } ],
    internals := [(3, { role := some "button" })] }

/-- Two labelled text inputs, for the substring-matching scenario. -/
def dEmail : Doc :=
  { nodes :=
      [ { nodeType := 9, tagName := "", isHTML := false, children := [1, 2] },
        { tagName := "INPUT", attrs := [("id", "t1"), ("aria-label", "Email address")] },
        { tagName := "INPUT", attrs := [("id", "t2"), ("aria-label", "Username")] } ] }


theorem hiddenF_of_chain_flagged (d : Doc) : ∀ fuel n,
    (chainF d fuel n).any (flaggedHidden d) = true →
    (isElementHiddenF d fuel n).fst = true := by
  intro fuel
  induction fuel with
  | zero => intro n h; simp [chainF] at h
  | succ fuel ih =>
    intro n h
    simp only [chainF, List.any_cons, Bool.or_eq_true] at h
    by_cases ht : (d.node n).nodeType = 1
    · simp only [isElementHiddenF, ht, if_true]
      rcases h with h | h
      · simp only [flaggedHidden, Bool.and_eq_true, Bool.or_eq_true,
          decide_eq_true_eq] at h
        obtain ⟨-, h⟩ := h
        split_ifs with h1 h2 h3 h4
        · rfl
        · rfl
        · rfl
        · rfl
        · cases hp : (d.node n).parent with
          | some p => simp_all [hasAttr]
          | none => simp_all [hasAttr]
      · cases hp : (d.node n).parent with
        | some p =>
          simp only [hp] at h ⊢
          split_ifs <;> first | rfl | (exact ih p (by simpa using h))
        | none => simp [hp] at h
    · simp only [isElementHiddenF, ht, if_false]
      rcases h with h | h
      · simp [flaggedHidden, ht] at h
      · cases hp : (d.node n).parent with
        | some p => simp only [hp] at h ⊢; exact ih p (by simpa using h)
        | none => simp [hp] at h

theorem Doc.node_ge (d : Doc) (n : Nat) (h : d.nodes.length ≤ n) : d.node n = defaultNode := by
  simp [Doc.node, List.getD, List.getElem?_eq_none h]

theorem parent_lt (d : Doc) (hpd : ParentsDecrease d = true) (n p : Nat)
    (hp : (d.node n).parent = some p) : p < n := by
  by_cases hn : n < d.nodes.length
  · have h := (List.all_eq_true.mp hpd) n (List.mem_range.mpr hn)
    unfold parentOk at h
    rw [hp] at h
    exact of_decide_eq_true h
  · rw [Doc.node_ge d n (by omega)] at hp
    simp [defaultNode] at hp

theorem chainF_stable (d : Doc) (hpd : ParentsDecrease d = true) :
    ∀ n f g, n + 1 ≤ f → n + 1 ≤ g → chainF d f n = chainF d g n := by
  intro n
  induction n using Nat.strong_induction_on with
  | _ n ih =>
    intro f g hf hg
    obtain ⟨f', rfl⟩ : ∃ f', f = f' + 1 := ⟨f - 1, by omega⟩
    obtain ⟨g', rfl⟩ : ∃ g', g = g' + 1 := ⟨g - 1, by omega⟩
    simp only [chainF]
    congr 1
    cases hp : (d.node n).parent with
    | none => rfl
    | some p =>
      have hpn : p < n := parent_lt d hpd n p hp
      dsimp only
      exact ih p hpn f' g' (by omega) (by omega)

theorem chain_subset (d : Doc) (hpd : ParentsDecrease d = true) :
    ∀ n H, H ∈ chainC d n → chainC d H ⊆ chainC d n := by
  intro n
  induction n using Nat.strong_induction_on with
  | _ n ih =>
    intro H hH
    by_cases hn0 : d.nodes.length = 0
    · unfold chainC at hH; rw [hn0] at hH; simp [chainF] at hH
    · obtain ⟨L, hL⟩ : ∃ L, d.nodes.length = L + 1 := ⟨d.nodes.length - 1, by omega⟩
      unfold chainC at hH ⊢
      rw [hL] at hH ⊢
      simp only [chainF] at hH
      rcases List.mem_cons.mp hH with rfl | hH2
      · exact fun a ha => ha
      · cases hp : (d.node n).parent with
        | none => rw [hp] at hH2; simp at hH2
        | some p =>
          rw [hp] at hH2
          dsimp only at hH2
          have hpn : p < n := parent_lt d hpd n p hp
          have hnL : n < d.nodes.length := by
            by_contra hc
            rw [Doc.node_ge d n (by omega)] at hp
            simp [defaultNode] at hp
          have hLp : chainF d L p = chainF d d.nodes.length p :=
            chainF_stable d hpd p L d.nodes.length (by omega) (by omega)
          rw [hLp] at hH2
          have hsub : chainC d H ⊆ chainC d p := ih p hpn H hH2
          intro a ha
          have hap : a ∈ chainF d d.nodes.length p := by
            apply hsub
            unfold chainC
            rw [hL]
            exact ha
          rw [← hLp] at hap
          simp only [chainF, hp]
          exact List.mem_cons_of_mem n hap

theorem hidden_of_ancestor (d : Doc) (hpd : ParentsDecrease d = true) (H n : Nat)
    (hH : HiddenVia d H = true) (hmem : H ∈ chainC d n) :
    (isElementHidden d n).fst = true := by
  unfold HiddenVia at hH
  rw [List.any_eq_true] at hH
  obtain ⟨a, ha, hfl⟩ := hH
  have han : a ∈ chainC d n := chain_subset d hpd n H hmem ha
  unfold isElementHidden
  exact hiddenF_of_chain_flagged d d.nodes.length n
    (List.any_eq_true.mpr ⟨a, han, hfl⟩)

theorem foldTrav_go_mem (g : TravSt → Nat → List Nat × TravSt) (P : Nat → Prop) :
    ∀ (ns : List Nat) (acc : List Nat) (st : TravSt),
      (∀ x ∈ acc, P x) →
      (∀ st2 c, c ∈ ns → ∀ x ∈ (g st2 c).fst, P x) →
      ∀ x ∈ (ns.foldl (fun p c => let r := g p.snd c; (p.fst ++ r.fst, r.snd)) (acc, st)).fst,
        P x := by
  intro ns
  induction ns with
  | nil => intro acc st hacc _ x hx; exact hacc x hx
  | cons c cs ih =>
    intro acc st hacc hg x hx
    simp only [List.foldl_cons] at hx
    refine ih (acc ++ (g st c).fst) (g st c).snd ?_ ?_ x hx
    · intro y hy
      rcases List.mem_append.mp hy with h | h
      · exact hacc y h
      · exact hg st c (by simp) y h
    · intro st2 c2 hc2 y hy
      exact hg st2 c2 (by simp [hc2]) y hy

theorem foldTrav_mem (g : TravSt → Nat → List Nat × TravSt) (P : Nat → Prop)
    (ns : List Nat) (st : TravSt)
    (hg : ∀ st2 c, c ∈ ns → ∀ x ∈ (g st2 c).fst, P x) :
    ∀ x ∈ (foldTrav g st ns).fst, P x := by
  unfold foldTrav
  exact foldTrav_go_mem g P ns [] st (by simp) hg

theorem hiddenCheck_elem (d : Doc) (n : Nat) (ht : (d.node n).nodeType = 1) :
    hiddenCheck d n = isElementHidden d n := by
  simp [hiddenCheck, ht]

theorem getElements_yield (d : Doc) : ∀ fuel st n x,
    x ∈ (getElementsS d fuel st n).fst →
    (d.node x).nodeType = 1 ∧ (isElementHidden d x).fst = false := by
  intro fuel
  induction fuel with
  | zero => intro st n x hx; simp [getElementsS] at hx
  | succ fuel ih =>
    intro st n x hx
    simp only [getElementsS] at hx
    split at hx
    · simp at hx
    · split at hx
      case isTrue hcond =>
        have hself : (d.node n).nodeType = 1 ∧ (isElementHidden d n).fst = false := by
          refine ⟨hcond.1, ?_⟩
          rw [← hiddenCheck_elem d n hcond.1]
          exact hcond.2
        split at hx
        · rcases List.mem_cons.mp hx with rfl | hx2
          · exact hself
          · exact foldTrav_mem _ _ _ _ (fun st2 c _ y hy => ih st2 c y hy) x hx2
        · split at hx
          · rcases List.mem_cons.mp hx with rfl | hx2
            · exact hself
            · exact ih _ _ x hx2
          · rcases List.mem_cons.mp hx with rfl | hx2
            · exact hself
            · exact foldTrav_mem _ _ _ _ (fun st2 c _ y hy => ih st2 c y hy) x hx2
      case isFalse hcond =>
        split at hx
        · exact foldTrav_mem _ _ _ _ (fun st2 c _ y hy => ih st2 c y hy) x hx
        · simp at hx

theorem head?_mem {α : Type} {l : List α} {x : α} (h : l.head? = some x) : x ∈ l := by
  cases l with
  | nil => simp at h
  | cons a t => simp only [List.head?_cons, Option.some.injEq] at h; rw [← h]; simp

theorem queryFold_mem (d : Doc) (fuel : Nat) (r : String) (nm : Option String) (ex : Option Bool) :
    ∀ (l : List Nat) (acc : List Nat × List Nat) (x : Nat),
      x ∈ (List.foldl (fun (p : List Nat × List Nat) el =>
        let ro := computeElementRoleS d fuel el
        let p₂ := (p.fst, p.snd ++ ro.snd)
        if ro.fst ≠ some r then p₂
        else if (nm.getD "") ≠ "" then
          let m := matchesNameFilterS d fuel el nm ex
          ((if m.fst then p₂.fst ++ [el] else p₂.fst), p₂.snd ++ m.snd)
        else (p₂.fst ++ [el], p₂.snd)) acc l).fst →
      x ∈ acc.fst ∨ (x ∈ l ∧ (computeElementRoleS d fuel x).fst = some r ∧
        ((nm.getD "") ≠ "" → (matchesNameFilterS d fuel x nm ex).fst = true)) := by
  intro l
  induction l with
  | nil => intro acc x hx; exact Or.inl hx
  | cons c cs ih =>
    intro acc x hx
    simp only [List.foldl_cons] at hx
    rcases ih _ x hx with h | h
    · split at h
      · exact Or.inl h
      case isFalse hrole =>
        have hre : (computeElementRoleS d fuel c).fst = some r := not_not.mp hrole
        split at h
        case isTrue hnm =>
          split at h
          case isTrue hm =>
            rcases List.mem_append.mp h with h2 | h2
            · exact Or.inl h2
            · have : x = c := by simpa using h2
              subst this
              exact Or.inr ⟨by simp, hre, fun _ => hm⟩
          case isFalse => exact Or.inl h
        case isFalse hnm =>
          rcases List.mem_append.mp h with h2 | h2
          · exact Or.inl h2
          · have : x = c := by simpa using h2
            subst this
            exact Or.inr ⟨by simp, hre, fun h3 => absurd h3 hnm⟩
    · exact Or.inr ⟨List.mem_cons_of_mem c h.1, h.2.1, h.2.2⟩

theorem queryAll_mem (d : Doc) (fuel root : Nat) (opts : ParsedOptions) (x : Nat)
    (hx : x ∈ (queryAllS d fuel root opts).fst) :
    x ∈ (getElementsS d fuel ⟨[], []⟩ root).fst ∧
      (computeElementRoleS d fuel x).fst = some (opts.role.getD "") ∧
      ((opts.name.getD "") ≠ "" → (matchesNameFilterS d fuel x opts.name opts.exact).fst = true) := by
  simp only [queryAllS] at hx
  split at hx
  · simp at hx
  · rcases queryFold_mem d fuel (opts.role.getD "") opts.name opts.exact _ _ x hx with h | h
    · simp at h
    · exact ⟨h.1, h.2.1, h.2.2⟩

theorem matches_true_name_nonempty (d : Doc) (fuel n : Nat) (nf : Option String)
    (ex : Option Bool) (h : (matchesNameFilterS d fuel n nf ex).fst = true) :
    (cANS d fuel ⟨[], [], []⟩ n (computeElementRoleS d fuel n).fst true).fst ≠ "" := by
  simp only [matchesNameFilterS] at h
  split at h
  · simp at h
  · split at h
    case isTrue hne => exact hne
    case isFalse => simp at h

/-- C2: for every element whose role attribute is present and non-empty,
computeElementRole returns that attribute value verbatim, for any fuel,
regardless of the tag of the element, of the tag table, and of any
recorded internals role override (the explicit check precedes both). -/
theorem claim2_explicit_role_verbatim (d : Doc) (n fuel : Nat) (r : String)
    (hr : getAttr d n "role" = some r) (hne : r ≠ "") :
    (computeElementRoleS d fuel n).fst = some r := by
  simp only [computeElementRoleS, computeRoleWith, hr, Option.getD_some]
  rw [if_pos hne]

theorem claim2_witness : (computeElementRoleS dRole 3 1).fst = some "banana" :=
  claim2_explicit_role_verbatim dRole 1 3 "banana" (by decide) (by decide)

/-- C7 (counterexample): the computed-style cache is engine-scoped, so the
state a queryAll call hands to the next call is not fresh: one call on a
one-button document leaves a non-empty persistent style cache. -/
theorem claim7_style_cache_persists :
    (engineQueryAll [] dBtnE 3 0 ⟨some "button", none, none, none⟩).snd ≠ [] := by
  decide

/-- C7 (amended): the persistent computed-style cache never influences
the elements a later call returns, because the cache stores live style
declarations (the query result is a function of the document, the fuel,
the root and the payload only); the computed-name cache and the visited
sets are created fresh inside each top-level call by construction. -/
theorem claim7_amended :
    (∀ (sc₁ sc₂ : List Nat) (d : Doc) (fuel root : Nat) (opts : ParsedOptions),
        (engineQueryAll sc₁ d fuel root opts).fst = (engineQueryAll sc₂ d fuel root opts).fst)
  ∧ (∀ (sc : List Nat) (d : Doc) (fuel root : Nat) (opts : ParsedOptions),
        (engineQueryAll sc d fuel root opts).fst = (queryAllS d fuel root opts).fst) :=
  ⟨fun _ _ _ _ _ _ => rfl, fun _ _ _ _ _ => rfl⟩

/-- C8: two payloads that differ only in the description field give the
same query and queryAll results on every root: the matching logic never
reads the description. -/
theorem claim8_description_no_influence (d : Doc) (fuel root : Nat)
    (r nm : Option String) (ex : Option Bool) (d₁ d₂ : Option String) :
    queryAllS d fuel root ⟨r, nm, d₁, ex⟩ = queryAllS d fuel root ⟨r, nm, d₂, ex⟩
  ∧ queryS d fuel root ⟨r, nm, d₁, ex⟩ = queryS d fuel root ⟨r, nm, d₂, ex⟩ :=
  ⟨rfl, rfl⟩

/-- C9: a payload whose role is absent or empty makes query return none
and queryAll return the empty list, on every document and root (and the
functions are total, so nothing can be raised). -/
theorem claim9_missing_role_empty (d : Doc) (fuel root : Nat)
    (nm ds : Option String) (ex : Option Bool) :
    queryAllS d fuel root ⟨none, nm, ds, ex⟩ = ([], [])
  ∧ queryS d fuel root ⟨none, nm, ds, ex⟩ = none
  ∧ queryAllS d fuel root ⟨some "", nm, ds, ex⟩ = ([], [])
  ∧ queryS d fuel root ⟨some "", nm, ds, ex⟩ = none := by
  refine ⟨?_, ?_, ?_, ?_⟩ <;> simp [queryAllS, queryS]

/-- C10: getByComputedRole omits falsy option values from the serialised
payload: an empty name, an empty description, or an explicit exact false
produce exactly the selector string of the call without options. -/
theorem claim10_falsy_options_omitted (role : String) :
    getByComputedRoleSelector role (some ⟨some "", none, none⟩) =
      getByComputedRoleSelector role none
  ∧ getByComputedRoleSelector role (some ⟨none, some "", none⟩) =
      getByComputedRoleSelector role none
  ∧ getByComputedRoleSelector role (some ⟨none, none, some false⟩) =
      getByComputedRoleSelector role none :=
  ⟨rfl, rfl, rfl⟩

/-- C1: an element hidden through any of the listed conditions (the
hidden attribute, aria-hidden true, computed display none or visibility
hidden, or the inert flag, on itself or on an ancestor of its
parentElement chain) is reported hidden by isElementHidden; the traversal
prunes it, yielding nothing from it; and neither query nor queryAll ever
returns it or any node whose ancestor chain passes through it, for every
fuel, root and payload. -/
theorem claim1_hidden_elements_pruned (d : Doc) (hpd : ParentsDecrease d = true)
    (H : Nat) (helem : (d.node H).nodeType = 1) (hH : HiddenVia d H = true) :
    (isElementHidden d H).fst = true
  ∧ (∀ fuel st, (getElementsS d fuel st H).fst = [])
  ∧ (∀ n, H ∈ chainC d n → ∀ fuel root opts,
      n ∉ (queryAllS d fuel root opts).fst ∧ queryS d fuel root opts ≠ some n) := by
  have hmemH : H ∈ chainC d H := by
    unfold HiddenVia at hH
    unfold chainC at *
    cases hl : d.nodes.length with
    | zero => rw [hl] at hH; simp [chainF] at hH
    | succ L => simp [chainF]
  have h1 : (isElementHidden d H).fst = true := hidden_of_ancestor d hpd H H hH hmemH
  refine ⟨h1, ?_, ?_⟩
  · intro fuel st
    cases fuel with
    | zero => rfl
    | succ fuel =>
      simp only [getElementsS]
      split
      · rfl
      · simp [hiddenCheck_elem d H helem, h1, helem, isSelectorRoot]
  · intro n hmem fuel root opts
    have hn : (isElementHidden d n).fst = true := hidden_of_ancestor d hpd H n hH hmem
    constructor
    · intro hq
      have := (getElements_yield d fuel ⟨[], []⟩ root n (queryAll_mem d fuel root opts n hq).1).2
      rw [hn] at this
      exact absurd this (by simp)
    · intro hq
      have hmemq : n ∈ (queryAllS d fuel root opts).fst := head?_mem hq
      have := (getElements_yield d fuel ⟨[], []⟩ root n (queryAll_mem d fuel root opts n hmemq).1).2
      rw [hn] at this
      exact absurd this (by simp)

theorem claim1_witness :
    (isElementHidden dHid 1).fst = true
  ∧ 2 ∉ (queryAllS dHid 3 0 ⟨some "generic", none, none, none⟩).fst := by
  have h := claim1_hidden_elements_pruned dHid (by decide) 1 (by decide) (by decide)
  exact ⟨h.1, (h.2.2 2 (by decide) 3 0 ⟨some "generic", none, none, none⟩).1⟩

set_option maxHeartbeats 4000000 in
/-- C4: accessible-name computation is cycle safe.  First conjunct: a
re-visited element of the same call chain (in the visited set, not in the
cache) resolves to the empty string immediately, with no recursion and no
state change, on every document and fuel.  Second conjunct: on the
two-element mutual aria-labelledby document, both names evaluate to the
empty string at every fuel of at least three, so the result is stable in
the fuel and the computation terminates with empty names rather than
recursing forever (the model is a total function; the fuel is the
termination device, and the claim content is this stability). -/
theorem claim4_name_cycle_safe :
    (∀ (d : Doc) (fuel : Nat) (st : NameSt) (el : Nat) (kr : Option String) (nfc : Bool),
        st.cache.lookup el = none → st.visited.contains el = true →
        cANS d (fuel + 1) st el kr nfc = ("", st))
  ∧ (∀ f : Nat,
        (cANS dCyc (f+1+1+1) ⟨[], [], []⟩ 1 none true).fst = ""
      ∧ (cANS dCyc (f+1+1+1) ⟨[], [], []⟩ 2 none true).fst = "") := by
  constructor
  · intro d fuel st el kr nfc hc hv
    simp only [cANS, hc, hv, if_true]
  · intro f
    constructor
    · simp +decide [cANS, canFinish, foldNames, getLabelledByElementsByAttribute, resolveIdRefs,
        getElementById, docOrderNodes, treeNodesF, wsTokens, wordsAux, getAttr, Doc.node,
        dCyc, normalizeWs, normOne, joinSp, associatedLabelTextC, assocStep2, labelsOf,
        labelForElems, isLabelable, asTextsC, asTextC, asTextF, computeRoleWith,
        altOf, valueOf, titleOf, inputType, hasAttr, isElementHidden, isElementHiddenF,
        cachePut, addTouched, rolesAllowingNameFromContent, computeInputElementRole]
    · simp +decide [cANS, canFinish, foldNames, getLabelledByElementsByAttribute, resolveIdRefs,
        getElementById, docOrderNodes, treeNodesF, wsTokens, wordsAux, getAttr, Doc.node,
        dCyc, normalizeWs, normOne, joinSp, associatedLabelTextC, assocStep2, labelsOf,
        labelForElems, isLabelable, asTextsC, asTextC, asTextF, computeRoleWith,
        altOf, valueOf, titleOf, inputType, hasAttr, isElementHidden, isElementHiddenF,
        cachePut, addTouched, rolesAllowingNameFromContent, computeInputElementRole]

theorem claim4_witness :
    cANS dCyc 1 ⟨[], [1], []⟩ 1 none true = ("", ⟨[], [1], []⟩) :=
  claim4_name_cycle_safe.1 dCyc 0 ⟨[], [1], []⟩ 1 none true (by decide) (by decide)

/-- C5: evaluation of the embedded computeAccessibleName at the input
where both an aria-label attribute and an internals ariaLabel are present
and non-empty: the source expression reads the attribute before the
internals label (its nullish chain starts with getAttribute), so the
returned name is the attribute value, while the comment above that step
and the specification state the reverse precedence. -/
theorem claim5_attribute_wins_over_internals :
    (cANS dLbl 2 ⟨[], [], []⟩ 1 none true).fst = "attr label"
  ∧ ("attr label" : String) ≠ "internals label" := by
  constructor
  · decide
  · decide

/-- C6 (counterexample): a payload whose name key holds the empty string
is treated as an absent filter (it is falsy), so a role-matching button
whose computed accessible name is empty is returned by queryAll and by
query, contradicting the claim that such an element is never returned on
empty-string name requests. -/
theorem claim6_counterexample :
    (queryAllS dBtnE 3 0 ⟨some "button", some "", none, none⟩).fst = [1]
  ∧ queryS dBtnE 3 0 ⟨some "button", some "", none, none⟩ = some 1
  ∧ (cANS dBtnE 3 ⟨[], [], []⟩ 1 (computeElementRoleS dBtnE 3 1).fst true).fst = "" := by
  refine ⟨by decide, by decide, by decide⟩

/-- C6 (amended): with a non-empty name filter the claim holds: every
element queryAll returns has a non-empty computed accessible name (an
element whose computed name is empty never satisfies the name filter);
a name key equal to the empty string is instead ignored entirely, as the
counterexample shows. -/
theorem claim6_amended (d : Doc) (fuel root : Nat) (opts : ParsedOptions) (s : String)
    (hn : opts.name = some s) (hs : s ≠ "") (n : Nat)
    (hmem : n ∈ (queryAllS d fuel root opts).fst) :
    (cANS d fuel ⟨[], [], []⟩ n (computeElementRoleS d fuel n).fst true).fst ≠ "" := by
  have hm := (queryAll_mem d fuel root opts n hmem).2.2 (by rw [hn]; simpa using hs)
  exact matches_true_name_nonempty d fuel n opts.name opts.exact hm

theorem claim6_witness :
    (cANS dBtn 4 ⟨[], [], []⟩ 1 (computeElementRoleS dBtn 4 1).fst true).fst ≠ "" :=
  claim6_amended dBtn 4 0 ⟨some "button", some "Go", none, none⟩ "Go" rfl (by decide) 1 (by decide)

/-- C3: an element with a tracker-registered detached root (shadow root)
contributes, to the traversal, itself followed by the traversal of the
shadow root only, and, to text extraction, the normalised text of the
shadow-root children only: in both cases the recursion continues into the
detached root and the ordinary (light) children of the host are never
traversed, so accessible-name computation (whose content steps go through
asText) also sees only the detached-root content.  The hypotheses state
that the node is a visible element that is not an image, an input, or a
slot with assigned content, which is automatic for real shadow hosts
because attachShadow is only available on plain container tags. -/
theorem claim3_detached_root_precedence (d : Doc) (n s : Nat)
    (hs : (d.shadow).lookup n = some s)
    (he : (d.node n).nodeType = 1)
    (h1 : (d.node n).tagName ≠ "IMG") (h2 : (d.node n).tagName ≠ "INPUT")
    (ha : (d.node n).assigned = [])
    (hv : (isElementHidden d n).fst = false) :
    (∀ fuel st, st.visited.contains n = false →
        getElementsS d (fuel + 1) st n =
          (n :: (getElementsS d fuel ⟨n :: st.visited, st.touched ++ (isElementHidden d n).snd⟩ s).fst,
           (getElementsS d fuel ⟨n :: st.visited, st.touched ++ (isElementHidden d n).snd⟩ s).snd))
  ∧ (∀ fuel,
        asTextF d (fuel + 1) n =
          (normalizeWs (foldTexts (fun c => asTextF d fuel c) (d.node s).children).fst,
           (isElementHidden d n).snd ++
             (foldTexts (fun c => asTextF d fuel c) (d.node s).children).snd)) := by
  constructor
  · intro fuel st hvst
    simp only [getElementsS, hvst, Bool.false_eq_true, if_false,
      hiddenCheck_elem d n he, hv, hs, ha, he]
    simp [isSlotEl, ha, hv, he]
  · intro fuel
    simp only [asTextF, he, hv, hs, ha]
    simp [isSlotEl, ha, hv, he, h1, h2]

theorem claim3_witness :
    getElementsS dShadow 3 ⟨[], []⟩ 1 =
      (1 :: (getElementsS dShadow 2 ⟨1 :: [], [] ++ (isElementHidden dShadow 1).snd⟩ 2).fst,
       (getElementsS dShadow 2 ⟨1 :: [], [] ++ (isElementHidden dShadow 1).snd⟩ 2).snd) :=
  (claim3_detached_root_precedence dShadow 1 2 (by decide) (by decide) (by decide)
    (by decide) (by decide) (by decide)).1 2 ⟨[], []⟩ (by decide)

/-! ## Scenario checks

Concrete evaluations of the embedding on the behavioural scenarios the
specification lists, as evidence that the embedded functions reproduce
the source behaviour end to end. -/

theorem sanity_labeled_checkbox :
    (computeElementRoleS dCheckbox 4 1).fst = some "checkbox"
  ∧ (cANS dCheckbox 4 ⟨[], [], []⟩ 1 none true).fst = "Subscribe" := by
  refine ⟨by decide, by decide⟩

theorem sanity_three_buttons_in_document_order :
    (queryAllS dThreeButtons 4 0 ⟨some "button", none, none, none⟩).fst = [1, 2, 3] := by
  decide

theorem sanity_substring_and_exact_name_matching :
    (queryAllS dEmail 4 0 ⟨some "textbox", some "Email", none, some false⟩).fst = [1]
  ∧ (queryAllS dEmail 4 0 ⟨some "textbox", some "Email", none, some true⟩).fst = []
  ∧ (queryAllS dEmail 4 0 ⟨some "textbox", some "Email address", none, some true⟩).fst = [1] := by
  refine ⟨by decide, by decide, by decide⟩
